import Mathlib

/-!
Verification of the benchmarking core of the aoc_lib crate.

The development shallowly embeds the two source files of the crate:

* src/bench.rs — the memory-trace parser (get_data), the runtime sampler
  (bench_function_runtime), the memory sampler (bench_function_memory),
  the Bench job context (Bench::bench) and the worker (bench_worker);
* src/lib.rs — the BenchError taxonomy and InputFile::open.

Machine integers are modelled as Nat / Int; isize arithmetic that can
overflow is modelled with explicit two's-complement wrap-around at 64
bits (the behaviour of a release build), and the isize → usize `as`
cast is modelled as reduction modulo 2^64.  Strings are modelled as
List Char; the relevant std string operations (str::lines,
str::split_whitespace, str::trim, str::parse) are embedded below.
-/

/-! ## Characters and string primitives -/

/-- Code points with the Unicode White_Space property, the set used by
char::is_whitespace and hence by str::split_whitespace and str::trim. -/
def isRustWhitespace (c : Char) : Bool :=
  let n := c.toNat
  n == 0x9 || n == 0xA || n == 0xB || n == 0xC || n == 0xD || n == 0x20 ||
  n == 0x85 || n == 0xA0 || n == 0x1680 ||
  (decide (0x2000 ≤ n) && decide (n ≤ 0x200A)) ||
  n == 0x2028 || n == 0x2029 || n == 0x202F || n == 0x205F || n == 0x3000

/-- Accumulator-passing splitter for str::split_whitespace: runs of
non-whitespace characters, empty tokens never produced. -/
def splitWsAux : List Char → List Char → List (List Char)
  | acc, [] => if acc.isEmpty then [] else [acc.reverse]
  | acc, c :: cs =>
    if isRustWhitespace c then
      if acc.isEmpty then splitWsAux [] cs else acc.reverse :: splitWsAux [] cs
    else splitWsAux (c :: acc) cs

/-- Model of str::split_whitespace. -/
def split_whitespace (l : List Char) : List (List Char) := splitWsAux [] l

/-- Model of str::trim: strip leading and trailing whitespace. -/
def rustTrim (l : List Char) : List Char :=
  ((l.dropWhile isRustWhitespace).reverse.dropWhile isRustWhitespace).reverse

/-- Split on a newline character, keeping empty segments. -/
def splitNlAux : List Char → List Char → List (List Char)
  | acc, [] => [acc.reverse]
  | acc, c :: cs =>
    if c = '\n' then acc.reverse :: splitNlAux [] cs else splitNlAux (c :: acc) cs

/-- Strip one trailing carriage return, as str::lines does per line. -/
def stripCarriageReturn (l : List Char) : List Char :=
  if l.getLast? = some '\r' then l.dropLast else l

/-- Model of str::lines: split at newline characters, a final line
ending is optional (no empty final line), and a trailing carriage
return is stripped from each line. -/
def rustLines (s : List Char) : List (List Char) :=
  let parts := splitNlAux [] s
  let parts := if parts.getLast? = some ([] : List Char) then parts.dropLast else parts
  parts.map stripCarriageReturn

/-! ## Decimal parsing (str::parse) -/

/-- Fold decimal digits; fails on the first non-digit character. -/
def parseDigitsAux : Nat → List Char → Option Nat
  | acc, [] => some acc
  | acc, c :: cs =>
    if c.isDigit then parseDigitsAux (10 * acc + (c.toNat - 48)) cs else none

/-- A non-empty all-digit token, as a natural number. -/
def parseDigits : List Char → Option Nat
  | [] => none
  | l => parseDigitsAux 0 l

/-- Model of str::parse::<u128>: an optional leading plus sign, then
decimal digits; the value must fit in 128 bits. -/
def parse_u128 (l : List Char) : Option Nat :=
  let body := match l with
    | '+' :: rest => rest
    | _ => l
  match parseDigits body with
  | some v => if v < 2 ^ 128 then some v else none
  | none => none

/-- Model of str::parse::<isize> on a 64-bit target: an optional sign,
then decimal digits; the value must fit in the i64 range. -/
def parse_isize (l : List Char) : Option Int :=
  match l with
  | '+' :: rest =>
    (parseDigits rest).bind fun v =>
      if v ≤ 2 ^ 63 - 1 then some (v : Int) else none
  | '-' :: rest =>
    (parseDigits rest).bind fun v =>
      if v ≤ 2 ^ 63 then some (-(v : Int)) else none
  | _ =>
    (parseDigits l).bind fun v =>
      if v ≤ 2 ^ 63 - 1 then some (v : Int) else none

/-! ## Memory trace parser (get_data, src/bench.rs lines 40-81) -/

/-- Result of the memory trace parser; the graph-point fields of the
source struct are commented out there and are not modelled. -/
structure MemoryData where
  max_memory : Nat
  deriving DecidableEq, Repr

/-- One line of the trace, exactly as the match in get_data reads it:
three iterator steps over the whitespace-split (and trimmed) tokens,
the second token parsed as u128 (the timestamp), the third as isize
(the size).  Arms in source order: "A" adds size, "F" adds the negated
size, "S" and "E" require only the timestamp and add nothing; any
other line is skipped (`none`).  Tokens past the third are never read,
so they cannot make a line fail to match. -/
def parseLine (line : List Char) : Option (Int × Nat) :=
  let parts := (split_whitespace line).map rustTrim
  match parts[0]?, (parts[1]?).map parse_u128, (parts[2]?).map parse_isize with
  | some t, some (some ts), p2 =>
    if t = ['A'] then
      match p2 with
      | some (some size) => some (size, ts)
      | _ => none
    else if t = ['F'] then
      match p2 with
      | some (some size) => some (-size, ts)
      | _ => none
    else if t = ['S'] then some (0, ts)
    else if t = ['E'] then some (0, ts)
    else none
  | _, _, _ => none

/-- Two's-complement wrap-around of signed 64-bit addition (the
release-build behaviour of `cur_bytes += size` on isize). -/
def i64wrap (x : Int) : Int := (x + 2 ^ 63) % 2 ^ 64 - 2 ^ 63

/-- The `as usize` cast of an isize: reinterpret the 64-bit pattern. -/
def usizeCast (x : Int) : Nat := (x % 2 ^ 64).toNat

/-- Loop body of get_data: state is (cur_bytes, max_bytes); a line that
does not match the grammar leaves the state unchanged, a matching line
adds its (signed) size to cur_bytes and raises max_bytes to it. -/
def memFoldStep (st : Int × Int) (line : List Char) : Int × Int :=
  match parseLine line with
  | none => st
  | some (size, _ts) =>
    let cur := i64wrap (st.1 + size)
    (cur, max st.2 cur)

/-- get_data (src/bench.rs lines 40-81): fold the loop body over the
lines of the trace starting from (0, 0) and cast max_bytes to usize.
The points vector built alongside is dropped by the source function
(its field is commented out) and is not modelled. -/
def get_data (trace_input : String) : MemoryData :=
  { max_memory := usizeCast (((rustLines trace_input.data).foldl memFoldStep (0, 0)).2) }

/-! ## Spec-side description of the parser output (claim C2's wording) -/

/-- The signed deltas of the lines that parse, in order. -/
def deltasOf (ls : List (List Char)) : List Int :=
  (ls.filterMap parseLine).map Prod.fst

/-- The signed deltas of the lines of a trace text that parse. -/
def parsedDeltas (s : String) : List Int := deltasOf (rustLines s.data)

/-- Written from the claim's words, to be compared with get_data:
max(0, maximum prefix value of the running signed byte total over the
parsed lines), with exact integer arithmetic. -/
def specPeak (s : String) : Int :=
  (List.scanl (· + ·) 0 (parsedDeltas s)).foldl max 0

/-! ## Runtime sampler (bench_function_runtime, src/bench.rs lines 83-126)

The loop is driven by two monotonic-clock reads per iteration plus the
running clock since the loop began.  We model durations in integer
nanoseconds: `clock n` is the value of bench_start.elapsed() observed
at the end of the n-th iteration (n counted from 1), and `sample n` is
the per-call elapsed value re-read and added to total_time in the n-th
iteration.  `as_secs` is division by 10^9.  The loop breaks after the
first iteration n with as_secs (clock n) ≥ bench_time and n ≥ 10; its
existence (the real monotonic clock is unbounded) is a parameter. -/

/-- The break condition checked at the bottom of the sampling loop. -/
def stopCond (bench_time : Nat) (clock : Nat → Nat) (n : Nat) : Prop :=
  bench_time ≤ clock n / 1000000000 ∧ 10 ≤ n

instance (bench_time : Nat) (clock : Nat → Nat) : DecidablePred (stopCond bench_time clock) :=
  fun n => inferInstanceAs (Decidable (bench_time ≤ clock n / 1000000000 ∧ 10 ≤ n))

/-- Result of the runtime sampler; the min/max/count fields of the
source struct are commented out there and are not modelled. -/
structure RuntimeData where
  mean_run : Nat
  deriving DecidableEq, Repr

/-- The number of iterations the loop performs: the first n at which
the break condition holds.  (The condition already forces n ≥ 10, and
n = 0 never satisfies it, matching the check-after-body loop.) -/
def total_runs (bench_time : Nat) (clock : Nat → Nat)
    (h : ∃ n, stopCond bench_time clock n) : Nat :=
  Nat.find h

/-- total_time after `runs` iterations: the sum of the per-iteration
elapsed samples (iterations numbered 1..runs). -/
def total_time (runs : Nat) (sample : Nat → Nat) : Nat :=
  ((List.range runs).map fun i => sample (i + 1)).sum

/-- Outcome of one invocation of the benchmarked closure, already
rendered to text; per the purity contract of §4.3 the closure behaves
the same on every invocation, so a job carries one fixed outcome. -/
inductive FnOutcome
  | ok (rendered : String)
  | err (rendered : String)
  | panics
  deriving DecidableEq

/-- A computation that either returns normally or escapes with a
panic (to be intercepted by catch_unwind in the worker). -/
inductive RunResult (α : Type)
  | normal (val : α)
  | panicked
  deriving DecidableEq, Repr

/-- bench_function_runtime: invoke the closure until the break
condition holds, then report mean latency = total_time / total_runs
(Duration division at nanosecond granularity).  A panicking closure
makes the loop itself panic on its first call. -/
def bench_function_runtime (bench_time : Nat) (f : FnOutcome) (clock sample : Nat → Nat)
    (h : ∃ n, stopCond bench_time clock n) : RunResult RuntimeData :=
  match f with
  | .panics => .panicked
  | _ =>
    let runs := total_runs bench_time clock h
    .normal { mean_run := total_time runs sample / runs }

/-! ## Memory sampler (bench_function_memory, src/bench.rs lines 128-155) -/

/-- A std::io::Error, abstract: its Display text, its Debug text and
the Debug text of its ErrorKind (the three renderings the crate uses). -/
structure IoError where
  displayRepr : String
  debugRepr : String
  kindRepr : String
  deriving DecidableEq, Repr

/-- MemoryBenchError (src/bench.rs lines 17-23): wraps the io::Error. -/
structure MemoryBenchError where
  inner : IoError
  deriving DecidableEq, Repr

/-- Thiserror Display for MemoryBenchError. -/
def renderMemoryBenchError (e : MemoryBenchError) : String :=
  "Error benching memory use: " ++ e.inner.debugRepr

/-- Oracle for the fallible I/O steps of one memory-sampler run and
for the trace text the tracer leaves in the scratch file: tempfile
creation, the explicit flush, the seek to the start, and the
read_to_string (which on success yields the trace text). -/
structure MemIoOracle where
  tempfileRes : Except IoError Unit
  flushRes : Except IoError Unit
  seekRes : Except IoError Unit
  readRes : Except IoError String

/-- Whether an I/O step failed. -/
def ioFailed {α : Type} : Except IoError α → Bool
  | .error _ => true
  | .ok _ => false

/-- bench_function_memory (src/bench.rs lines 128-155).  The tracer
calls between the I/O steps are modelled from the spec: `Modelled
from the spec:` the TracingAlloc type lives in the crate's alloc
module, which is not among the provided sources; per §4.1/§4.4
set_file installs the (sole) sink, enable/disable_tracing toggle
emission and never fail, and clear_file returns the sink that was
installed just above, so the source's two unwraps succeed.  Each `?`
on an I/O step converts its io::Error into a MemoryBenchError; the
traced invocation of the closure happens between enable and disable
and panics iff the closure does. -/
def bench_function_memory (f : FnOutcome) (mio : MemIoOracle) :
    RunResult (Except MemoryBenchError MemoryData) :=
  match mio.tempfileRes with
  | .error e => .normal (.error ⟨e⟩)
  | .ok _ =>
    match f with
    | .panics => .panicked
    | _ =>
      match mio.flushRes with
      | .error e => .normal (.error ⟨e⟩)
      | .ok _ =>
        match mio.seekRes with
        | .error e => .normal (.error ⟨e⟩)
        | .ok _ =>
          match mio.readRes with
          | .error e => .normal (.error ⟨e⟩)
          | .ok trace => .normal (.ok (get_data trace))

/-! ## Events, errors and the job context (src/bench.rs lines 157-213) -/

/-- BenchEvent (src/bench.rs lines 157-163). -/
inductive BenchEvent
  | Answer (answer : String) (id : Nat)
  | Memory (data : MemoryData) (id : Nat)
  | Timing (data : RuntimeData) (id : Nat)
  | Error (err : String) (id : Nat)
  | Finish (id : Nat)
  deriving DecidableEq, Repr

/-- BenchError (src/lib.rs lines 21-41); the boxed user error is
carried as its rendered text. -/
inductive BenchError
  | MemoryBenchError (e : MemoryBenchError) (id : Nat)
  | ChannelError (id : Nat)
  | InputFileError (inner : IoError) (name : String)
  | UserError (msg : String)
  | DaysFilterError (day : Nat)
  deriving DecidableEq, Repr

/-- Thiserror Display for BenchError. -/
def renderBenchError : BenchError → String
  | .MemoryBenchError e id =>
    "Error performing memory benchmark function " ++ toString id ++ ": " ++
      renderMemoryBenchError e
  | .ChannelError id => "Error returning benchmark result for function " ++ toString id
  | .InputFileError inner name =>
    "Error opening input file '" ++ name ++ "': " ++ inner.displayRepr
  | .UserError msg => msg
  | .DaysFilterError day => "Day " ++ toString day ++ " not defined"

/-- The crossbeam channel as the workers see it: send never blocks and
fails exactly when every receiver has been dropped.  Disconnection is
permanent, so it is modelled by the index of the first failing send:
the k-th send attempt of a worker succeeds iff k < m (or always, when
the consumer never goes away).  A failed send delivers nothing. -/
def sendOk (c : Option Nat) (k : Nat) : Bool :=
  match c with
  | none => true
  | some m => decide (k < m)

/-- The Bench context (src/bench.rs lines 165-171): the tracer handle
is implicit in the memory-sampler oracle and the channel handle in the
send oracle, so the modelled fields are id, run_only and bench_time. -/
structure Bench where
  id : Nat
  run_only : Bool
  bench_time : Nat
  deriving DecidableEq, Repr

/-- What one run of Bench::bench (or of the worker around it) did on
the channel: the events whose send was attempted, in order, and the
subsequence of them that was actually delivered. -/
structure BenchOut where
  attempts : List BenchEvent
  delivered : List BenchEvent
  res : RunResult (Except BenchError Unit)
  next : Nat
  deriving Repr

/-- Bench::bench (src/bench.rs lines 174-212), for a job function that
invokes it on a closure with fixed outcome f (the library's usage
contract).  `k0` is the index of the worker's next send attempt.  On
Ok the Answer is sent; if run_only the method returns, otherwise the
memory sampler runs (its error is mapped to BenchError::MemoryBenchError
and returned), the Memory event is sent, the runtime sampler runs and
the Timing event is sent.  On Err only the Error event is sent.  Every
failed send maps to BenchError::ChannelError and returns at once via
the question-mark operator.  A panic of the closure escapes. -/
def Bench.bench (b : Bench) (f : FnOutcome) (mio : MemIoOracle)
    (clock sample : Nat → Nat) (hrt : ∃ n, stopCond b.bench_time clock n)
    (c : Option Nat) (k0 : Nat) : BenchOut :=
  match f with
  | .panics => ⟨[], [], .panicked, k0⟩
  | .err msg =>
    let ev := BenchEvent.Error msg b.id
    if sendOk c k0 then ⟨[ev], [ev], .normal (.ok ()), k0 + 1⟩
    else ⟨[ev], [], .normal (.error (.ChannelError b.id)), k0 + 1⟩
  | .ok t =>
    let ea := BenchEvent.Answer t b.id
    if sendOk c k0 then
      if b.run_only then ⟨[ea], [ea], .normal (.ok ()), k0 + 1⟩
      else
        match bench_function_memory (.ok t) mio with
        | .panicked => ⟨[ea], [ea], .panicked, k0 + 1⟩
        | .normal (.error e) =>
          ⟨[ea], [ea], .normal (.error (.MemoryBenchError e b.id)), k0 + 1⟩
        | .normal (.ok d) =>
          let em := BenchEvent.Memory d b.id
          if sendOk c (k0 + 1) then
            match bench_function_runtime b.bench_time (.ok t) clock sample hrt with
            | .panicked => ⟨[ea, em], [ea, em], .panicked, k0 + 2⟩
            | .normal rd =>
              let et := BenchEvent.Timing rd b.id
              if sendOk c (k0 + 2) then
                ⟨[ea, em, et], [ea, em, et], .normal (.ok ()), k0 + 3⟩
              else ⟨[ea, em, et], [ea, em], .normal (.error (.ChannelError b.id)), k0 + 3⟩
          else ⟨[ea, em], [ea], .normal (.error (.ChannelError b.id)), k0 + 2⟩
    else ⟨[ea], [], .normal (.error (.ChannelError b.id)), k0 + 1⟩

/-! ## Worker (bench_worker, src/bench.rs lines 215-256) -/

/-- Observable behaviour of one bench_worker call: events attempted and
delivered, whether the worker thread itself panicked (an `expect` on a
failed send, so no Finish follows), and whether the `unreachable!` arm
for a non-InputFileError input failure was entered. -/
structure WorkerOut where
  attempts : List BenchEvent
  delivered : List BenchEvent
  panicked : Bool
  hitUnreachable : Bool
  deriving Repr

/-- The worker's final `send(Finish).expect(..)`. -/
def sendFinish (id : Nat) (c : Option Nat) (atts dels : List BenchEvent) (k : Nat) :
    WorkerOut :=
  let ef := BenchEvent.Finish id
  if sendOk c k then ⟨atts ++ [ef], dels ++ [ef], false, false⟩
  else ⟨atts ++ [ef], dels, true, false⟩

/-- The worker's handling of the outcome of the catch_unwind block
(src/bench.rs lines 222-240 plus the final Finish): a clean completion
goes straight to the Finish send; a returned error is re-sent as an
Error event via expect; an intercepted panic is sent as the fixed text
"Function panicked!" via expect; a failed expect panics the worker
thread, so nothing further is attempted. -/
def workerTail (id : Nat) (c : Option Nat) (out : BenchOut) : WorkerOut :=
  match out.res with
  | .normal (.ok _) => sendFinish id c out.attempts out.delivered out.next
  | .normal (.error e) =>
    let ev := BenchEvent.Error (renderBenchError e) id
    if sendOk c out.next then
      sendFinish id c (out.attempts ++ [ev]) (out.delivered ++ [ev]) (out.next + 1)
    else ⟨out.attempts ++ [ev], out.delivered, true, false⟩
  | .panicked =>
    let ev := BenchEvent.Error "Function panicked!" id
    if sendOk c out.next then
      sendFinish id c (out.attempts ++ [ev]) (out.delivered ++ [ev]) (out.next + 1)
    else ⟨out.attempts ++ [ev], out.delivered, true, false⟩

/-- bench_worker (src/bench.rs lines 215-256): resolve the input; on
success run the job function (which invokes Bench::bench on the fixed
closure) inside catch_unwind and handle the outcome (workerTail); an
input InputFileError is sent as an Error event and then Finish; any
other input error variant is the unreachable arm. -/
def bench_worker (b : Bench) (openRes : Except BenchError String) (f : FnOutcome)
    (mio : MemIoOracle) (clock sample : Nat → Nat)
    (hrt : ∃ n, stopCond b.bench_time clock n) (c : Option Nat) : WorkerOut :=
  match openRes with
  | .ok _input => workerTail b.id c (Bench.bench b f mio clock sample hrt c 0)
  | .error (.InputFileError inner name) =>
    let ev := BenchEvent.Error (name ++ ": " ++ inner.kindRepr) b.id
    if sendOk c 0 then sendFinish b.id c [ev] [ev] 1
    else ⟨[ev], [], true, false⟩
  | .error _ => ⟨[], [], false, true⟩

/-! ## Input resolution (InputFile::open, src/lib.rs lines 140-183) -/

/-- The Example marker (src/lib.rs lines 119-138). -/
inductive Example
  | Parse
  | Part1
  | Part2
  | Other (s : String)
  deriving DecidableEq, Repr

/-- Display for Example. -/
def Example.render : Example → String
  | .Parse => "parse"
  | .Part1 => "part1"
  | .Part2 => "part2"
  | .Other s => s

/-- InputFile (src/lib.rs lines 140-144); the Display-able example id
is carried as its rendered text. -/
structure InputFile where
  year : Nat
  day : Nat
  example_id : Option (Example × String)

/-- Zero-padded two-digit formatting. -/
def fmt02 (n : Nat) : String := if n < 10 then "0" ++ toString n else toString n

/-- The path InputFile::open builds. -/
def InputFile.path (f : InputFile) : String :=
  match f.example_id with
  | some (part, id) =>
    "./example_inputs/aoc_" ++ fmt02 (f.year % 100) ++ fmt02 f.day ++ "_" ++
      Example.render part ++ "-" ++ id ++ ".txt"
  | none => "./inputs/aoc_" ++ fmt02 (f.year % 100) ++ fmt02 f.day ++ ".txt"

/-- InputFile::open (src/lib.rs lines 156-175): read the file at the
computed path through the filesystem oracle; any read failure is
wrapped as BenchError::InputFileError with the path as the name.
(Lean reserves `open`, hence the name openFile.) -/
def InputFile.openFile (f : InputFile) (fs : String → Except IoError String) :
    Except BenchError String :=
  match fs f.path with
  | .ok contents => .ok contents
  | .error e => .error (.InputFileError e f.path)

/-! ## Event-sequence predicates -/

/-- Is the event a Memory or Timing event. -/
def isMemTiming : BenchEvent → Bool
  | .Memory _ _ => true
  | .Timing _ _ => true
  | _ => false

/-- Is the event a Timing event. -/
def isTiming : BenchEvent → Bool
  | .Timing _ _ => true
  | _ => false

/-- Is the event a Finish event. -/
def isFinish : BenchEvent → Bool
  | .Finish _ => true
  | _ => false

/-- Is the event an Error event. -/
def isErrorEvent : BenchEvent → Bool
  | .Error _ _ => true
  | _ => false

/-- No Memory or Timing event occurs anywhere after an Error event. -/
def noMemTimingAfterError : List BenchEvent → Bool
  | [] => true
  | e :: rest =>
    if isErrorEvent e then
      rest.all (fun x => isMemTiming x = false) && noMemTimingAfterError rest
    else noMemTimingAfterError rest

/-! ## Concrete instances used by the witnesses -/

/-- A clock that never advances (an instantaneous workload). -/
def clock0 : Nat → Nat := fun _ => 0

/-- Per-call elapsed samples, all zero. -/
def sample0 : Nat → Nat := fun _ => 0

/-- A concrete io::Error. -/
def ioe0 : IoError := ⟨"scratch fault", "ScratchFault", "Other"⟩

/-- A memory-sampler oracle whose I/O all succeeds. -/
def mio0 : MemIoOracle := ⟨.ok (), .ok (), .ok (), .ok "A 1 100\nF 2 100"⟩

/-- A memory-sampler oracle whose flush fails. -/
def mioFlushFail : MemIoOracle := ⟨.ok (), .error ioe0, .ok (), .ok ""⟩

/-- A filesystem where every read fails. -/
def fs0 : String → Except IoError String := fun _ => .error ioe0

/-! # Theorems -/

set_option maxRecDepth 100000

/-! ## Fold lemmas for the memory trace parser -/

theorem foldl_max_init_le (l : List Int) : ∀ b : Int, b ≤ l.foldl max b := by
  induction l with
  | nil => intro b; simp
  | cons a l ih =>
    intro b
    simp only [List.foldl_cons]
    exact le_trans (le_max_left b a) (ih (max b a))

theorem foldl_max_lt (l : List Int) (B : Int) :
    ∀ b : Int, b < B → (∀ x ∈ l, x < B) → l.foldl max b < B := by
  induction l with
  | nil => intro b hb _; simpa using hb
  | cons a l ih =>
    intro b hb hl
    simp only [List.foldl_cons]
    exact ih (max b a) (max_lt hb (hl a (by simp))) fun x hx => hl x (by simp [hx])

theorem foldl_max_scanl_absorb (ds : List Int) (b m : Int) :
    List.foldl max (max m b) (List.scanl (· + ·) b ds) =
      List.foldl max m (List.scanl (· + ·) b ds) := by
  cases ds with
  | nil =>
    simp only [List.scanl_nil, List.foldl_cons, List.foldl_nil]
    rw [max_assoc, max_self]
  | cons e es =>
    simp only [List.scanl_cons, List.singleton_append, List.foldl_cons]
    rw [max_assoc, max_self]

/-- The get_data loop, related to exact integer arithmetic: as long as
every running total stays inside the i64 range, the loop state after
the fold is precisely (final running total, max over all prefixes of
the running totals, joined with the initial max). -/
theorem memFold_spec (lines : List (List Char)) :
    ∀ c m : Int, c ≤ m →
      (∀ p ∈ List.scanl (· + ·) c (deltasOf lines), -(2 ^ 63) ≤ p ∧ p < 2 ^ 63) →
      lines.foldl memFoldStep (c, m) =
        (List.foldl (· + ·) c (deltasOf lines),
         List.foldl max m (List.scanl (· + ·) c (deltasOf lines))) := by
  induction lines with
  | nil =>
    intro c m hcm _
    simp [deltasOf, max_eq_left hcm]
  | cons l ls ih =>
    intro c m hcm hrange
    cases hp : parseLine l with
    | none =>
      have hd : deltasOf (l :: ls) = deltasOf ls := by
        simp [deltasOf, List.filterMap_cons, hp]
      rw [hd] at hrange ⊢
      rw [List.foldl_cons]
      have hstep : memFoldStep (c, m) l = (c, m) := by simp [memFoldStep, hp]
      rw [hstep]
      exact ih c m hcm hrange
    | some dt =>
      obtain ⟨d, ts⟩ := dt
      have hd : deltasOf (l :: ls) = d :: deltasOf ls := by
        simp [deltasOf, List.filterMap_cons, hp]
      rw [hd] at hrange ⊢
      have hcd : -(2 ^ 63) ≤ c + d ∧ c + d < 2 ^ 63 := by
        apply hrange
        have hmem : c + d ∈ List.scanl (· + ·) (c + d) (deltasOf ls) := by
          cases hds : deltasOf ls <;> simp [List.scanl]
        simp only [List.scanl_cons, List.singleton_append]
        exact List.mem_cons_of_mem _ hmem
      have hwrap : i64wrap (c + d) = c + d := by
        unfold i64wrap
        have h1 : (0 : Int) ≤ c + d + 2 ^ 63 := by linarith [hcd.1]
        have h2 : c + d + 2 ^ 63 < 2 ^ 64 := by
          have := hcd.2
          norm_num at this ⊢
          linarith
        rw [Int.emod_eq_of_lt h1 h2]
        ring
      have hstep : memFoldStep (c, m) l = (c + d, max m (c + d)) := by
        simp [memFoldStep, hp, hwrap]
      rw [List.foldl_cons, hstep]
      have htail : ∀ p ∈ List.scanl (· + ·) (c + d) (deltasOf ls),
          -(2 ^ 63) ≤ p ∧ p < 2 ^ 63 := by
        intro p hp'
        apply hrange
        simp only [List.scanl_cons, List.singleton_append]
        exact List.mem_cons_of_mem _ hp'
      rw [ih (c + d) (max m (c + d)) (le_max_right _ _) htail]
      simp only [List.scanl_cons, List.singleton_append, List.foldl_cons]
      rw [max_eq_left hcm, foldl_max_scanl_absorb]

/-! ## C9 -/

/-- C9: on the concrete trace "S 0\nA 1 100\nA 2 50\nF 3 120\nE 4" the
memory trace parser computes a peak of 150 bytes. -/
theorem c9_concrete_trace :
    (get_data "S 0\nA 1 100\nA 2 50\nF 3 120\nE 4").max_memory = 150 := by decide

/-! ## C2 -/

/-- C2, counterexample to the unrestricted claim: on a trace whose two
allocation lines sum past the isize range, the release-build wrap-around
of `cur_bytes += size` makes the reported peak (isize::MAX) differ from
the exact maximum prefix value of the running signed byte total
(2^64 - 2) that the claim prescribes for every input text. -/
theorem c2_counterexample :
    ((get_data "A 0 9223372036854775807\nA 1 9223372036854775807").max_memory : Int) ≠
      specPeak "A 0 9223372036854775807\nA 1 9223372036854775807" := by decide

/-- C2 as amended: for every trace text whose running signed byte
totals all stay inside the i64 range, peak_bytes equals max(0, maximum
prefix value of the running signed total over the parsed lines: +size
for A, -size for F, 0 for S/E); in particular the result is never
negative, even when the cumulative size of F events exceeds the prior
A events. -/
theorem c2_amended (s : String)
    (h : ∀ p ∈ List.scanl (· + ·) 0 (parsedDeltas s), -(2 ^ 63) ≤ p ∧ p < 2 ^ 63) :
    ((get_data s).max_memory : Int) = specPeak s ∧ 0 ≤ specPeak s := by
  have key := memFold_spec (rustLines s.data) 0 0 le_rfl h
  have hnn : (0 : Int) ≤ specPeak s := foldl_max_init_le _ 0
  have hlt : specPeak s < 2 ^ 63 :=
    foldl_max_lt _ _ 0 (by norm_num) fun x hx => (h x hx).2
  refine ⟨?_, hnn⟩
  have hgd : (get_data s).max_memory = usizeCast (specPeak s) := by
    unfold get_data
    rw [key]
    rfl
  rw [hgd]
  unfold usizeCast
  rw [Int.emod_eq_of_lt hnn (lt_trans hlt (by norm_num))]
  exact Int.toNat_of_nonneg hnn

/-- Witness for C2: on a trace whose F events free more than the A
events allocated, the range hypothesis holds and the reported peak is
the clamped maximum prefix total. -/
theorem c2_witness :
    ((get_data "A 1 5\nF 2 9\nF 3 100").max_memory : Int) =
        specPeak "A 1 5\nF 2 9\nF 3 100" ∧
      0 ≤ specPeak "A 1 5\nF 2 9\nF 3 100" :=
  c2_amended "A 1 5\nF 2 9\nF 3 100" (by decide)

/-! ## C3 -/

/-- C3, counterexample: the line "A 0 5 x" has the wrong token count
for the grammar (four tokens), yet inserting it into the well-formed
trace "S 0\nE 1" changes the computed peak from 0 to 5, because the
parser never reads past the third token of a line. -/
theorem c3_counterexample :
    (get_data "S 0\nA 0 5 x\nE 1").max_memory ≠ (get_data "S 0\nE 1").max_memory := by
  decide

/-- C3 as amended: inserting a line the parser's match rejects (too
few tokens, non-numeric timestamp/size fields, or an unknown leading
token) anywhere into a trace leaves the computed peak unchanged — such
lines are skipped, never a fatal error.  A malformed line with extra
tokens after a valid three-token prefix, however, is parsed as if the
extra tokens were absent (the claim's "wrong token count" case fails
in that direction, see the counterexample). -/
theorem c3_amended (ls1 ls2 : List (List Char)) (bad : List Char)
    (h : parseLine bad = none) :
    ((ls1 ++ bad :: ls2).foldl memFoldStep (0, 0)).2 =
      ((ls1 ++ ls2).foldl memFoldStep (0, 0)).2 ∧
    ∀ s : String,
      (get_data s).max_memory = usizeCast (((rustLines s.data).foldl memFoldStep (0, 0)).2) := by
  refine ⟨?_, fun s => rfl⟩
  have hstep : ∀ st : Int × Int, memFoldStep st bad = st := by
    intro st
    simp [memFoldStep, h]
  rw [List.foldl_append, List.foldl_append, List.foldl_cons, hstep]

/-- Witness for C3: the line "A x" (non-numeric timestamp) is rejected
by the parser, and inserting it after the valid line "A 0 5" leaves
the fold state unchanged. -/
theorem c3_witness :
    parseLine ['A', ' ', 'x'] = none ∧
    (([['A', ' ', '0', ' ', '5']] ++ ['A', ' ', 'x'] :: []).foldl memFoldStep (0, 0)).2 =
      (([['A', ' ', '0', ' ', '5']] ++ []).foldl memFoldStep (0, 0)).2 :=
  ⟨by decide, (c3_amended [['A', ' ', '0', ' ', '5']] [] ['A', ' ', 'x'] (by decide)).1⟩

/-! ## C4 -/

/-- C4: for every callable and every budget (including 0), the sampling
loop stops at the first iteration count satisfying both the time floor
(elapsed wall time, in whole seconds, at least bench_time) and the
count floor (at least 10 samples) — so no earlier iteration satisfies
the break condition, every run performs at least 10 invocations, and
the reported mean latency is the accumulated elapsed time divided by
the total sample count. -/
theorem c4_runtime_sampler (bench_time : Nat) (f : FnOutcome) (clock sample : Nat → Nat)
    (h : ∃ n, stopCond bench_time clock n) (hf : f ≠ FnOutcome.panics) :
    10 ≤ total_runs bench_time clock h ∧
    bench_time ≤ clock (total_runs bench_time clock h) / 1000000000 ∧
    (∀ k, k < total_runs bench_time clock h → ¬ stopCond bench_time clock k) ∧
    bench_function_runtime bench_time f clock sample h =
      .normal { mean_run := total_time (total_runs bench_time clock h) sample /
                  total_runs bench_time clock h } := by
  have hspec : stopCond bench_time clock (Nat.find h) := Nat.find_spec h
  refine ⟨hspec.2, hspec.1, fun k hk => Nat.find_min h hk, ?_⟩
  cases f with
  | ok r => rfl
  | err r => rfl
  | panics => exact absurd rfl hf

/-- A break-condition witness for the zero clock with budget 0. -/
theorem hfind0 : ∃ n, stopCond 0 clock0 n := ⟨10, Nat.zero_le _, le_rfl⟩

/-- Witness for C4 at budget 0 with an instantaneous workload. -/
theorem c4_witness :
    10 ≤ total_runs 0 clock0 hfind0 ∧
    0 ≤ clock0 (total_runs 0 clock0 hfind0) / 1000000000 ∧
    ¬ stopCond 0 clock0 9 ∧
    bench_function_runtime 0 (.ok "") clock0 sample0 hfind0 =
      .normal { mean_run := total_time (total_runs 0 clock0 hfind0) sample0 /
                  total_runs 0 clock0 hfind0 } :=
  have h := c4_runtime_sampler 0 (.ok "") clock0 sample0 hfind0 (by decide)
  ⟨h.1, h.2.1, h.2.2.1 9 (lt_of_lt_of_le (by norm_num) h.1), h.2.2.2⟩

/-! ## Worker lemmas -/

theorem workerTail_attempts_mem (id : Nat) (c : Option Nat) (out : BenchOut) :
    ∀ e ∈ (workerTail id c out).attempts, e ∈ out.attempts ∨ isMemTiming e = false := by
  intro e he
  unfold workerTail sendFinish at he
  repeat' split at he
  all_goals simp only [List.mem_append, List.mem_singleton] at he
  all_goals first
    | (obtain (he | rfl) | rfl := he
       exacts [Or.inl he, Or.inr rfl, Or.inr rfl])
    | (obtain he | rfl := he
       exacts [Or.inl he, Or.inr rfl])

theorem bench_attempts_run_only (b : Bench) (f : FnOutcome) (mio : MemIoOracle)
    (clock sample : Nat → Nat) (hrt : ∃ n, stopCond b.bench_time clock n)
    (c : Option Nat) (k0 : Nat) (hro : b.run_only = true) :
    ∀ e ∈ (Bench.bench b f mio clock sample hrt c k0).attempts, isMemTiming e = false := by
  obtain ⟨id, ro, bt⟩ := b
  simp only at hro
  subst hro
  intro e he
  cases f with
  | panics => simp [Bench.bench] at he
  | err msg =>
    simp [Bench.bench, apply_ite BenchOut.attempts] at he
    subst he
    rfl
  | ok t =>
    simp [Bench.bench, apply_ite BenchOut.attempts] at he
    subst he
    rfl

theorem bench_channel_master (b : Bench) (f : FnOutcome) (mio : MemIoOracle)
    (clock sample : Nat → Nat) (hrt : ∃ n, stopCond b.bench_time clock n) (m : Nat) :
    ((Bench.bench b f mio clock sample hrt (some m) 0).res =
        .normal (.error (.ChannelError b.id)) ↔
      m < (Bench.bench b f mio clock sample hrt (some m) 0).attempts.length) ∧
    (Bench.bench b f mio clock sample hrt (some m) 0).next =
      (Bench.bench b f mio clock sample hrt (some m) 0).attempts.length ∧
    BenchEvent.Finish b.id ∉ (Bench.bench b f mio clock sample hrt (some m) 0).attempts := by
  obtain ⟨id, ro, bt⟩ := b
  cases f with
  | panics => refine ⟨by simp [Bench.bench], by simp [Bench.bench], by simp [Bench.bench]⟩
  | err msg =>
    by_cases h0 : 0 < m
    · exact ⟨by simp [Bench.bench, sendOk, h0]; omega, by simp [Bench.bench, sendOk, h0],
        by simp [Bench.bench, sendOk, h0]⟩
    · exact ⟨by simp [Bench.bench, sendOk, h0]; omega, by simp [Bench.bench, sendOk, h0],
        by simp [Bench.bench, sendOk, h0]⟩
  | ok t =>
    by_cases h0 : 0 < m
    · cases ro with
      | true =>
        exact ⟨by simp [Bench.bench, sendOk, h0]; omega, by simp [Bench.bench, sendOk, h0],
          by simp [Bench.bench, sendOk, h0]⟩
      | false =>
        cases hm : bench_function_memory (.ok t) mio with
        | panicked =>
          exact ⟨by simp [Bench.bench, sendOk, h0, hm]; omega,
            by simp [Bench.bench, sendOk, h0, hm], by simp [Bench.bench, sendOk, h0, hm]⟩
        | normal r =>
          cases r with
          | error e =>
            exact ⟨by simp [Bench.bench, sendOk, h0, hm]; omega,
              by simp [Bench.bench, sendOk, h0, hm], by simp [Bench.bench, sendOk, h0, hm]⟩
          | ok d =>
            by_cases h1 : 1 < m
            · by_cases h2 : 2 < m
              · exact
                  ⟨by simp [Bench.bench, bench_function_runtime, sendOk, h0, h1, h2, hm]; omega,
                   by simp [Bench.bench, bench_function_runtime, sendOk, h0, h1, h2, hm],
                   by simp [Bench.bench, bench_function_runtime, sendOk, h0, h1, h2, hm]⟩
              · exact
                  ⟨by simp [Bench.bench, bench_function_runtime, sendOk, h0, h1, h2, hm]; omega,
                   by simp [Bench.bench, bench_function_runtime, sendOk, h0, h1, h2, hm],
                   by simp [Bench.bench, bench_function_runtime, sendOk, h0, h1, h2, hm]⟩
            · exact ⟨by simp [Bench.bench, sendOk, h0, h1, hm]; omega,
                by simp [Bench.bench, sendOk, h0, h1, hm],
                by simp [Bench.bench, sendOk, h0, h1, hm]⟩
    · exact ⟨by simp [Bench.bench, sendOk, h0]; omega, by simp [Bench.bench, sendOk, h0],
        by simp [Bench.bench, sendOk, h0]⟩

theorem workerTail_send_error_fail (id : Nat) (c : Option Nat) (out : BenchOut)
    (e : BenchError) (hres : out.res = .normal (.error e))
    (hfail : sendOk c out.next = false) :
    workerTail id c out =
      ⟨out.attempts ++ [BenchEvent.Error (renderBenchError e) id],
       out.delivered, true, false⟩ := by
  unfold workerTail
  rw [hres]
  simp [hfail]

/-! ## C1 -/

/-- C1: with the consumer alive and the memory sampler's I/O sound,
every job outcome (success with run_only, success with full
benchmarking, job-logic error, or intercepted panic) delivers for its
id exactly one of the sequences [Answer, Finish],
[Answer, Memory, Timing, Finish] or [Error, Finish]: exactly one
Finish is sent, it is last, and no Memory or Timing event follows an
Error. -/
theorem c1_job_lifecycle (b : Bench) (f : FnOutcome) (mio : MemIoOracle)
    (clock sample : Nat → Nat) (hrt : ∃ n, stopCond b.bench_time clock n)
    (input trace : String)
    (h1 : mio.tempfileRes = .ok ()) (h2 : mio.flushRes = .ok ())
    (h3 : mio.seekRes = .ok ()) (h4 : mio.readRes = .ok trace) :
    ((∃ a, (bench_worker b (.ok input) f mio clock sample hrt none).delivered =
        [BenchEvent.Answer a b.id, BenchEvent.Finish b.id]) ∨
     (∃ a d r, (bench_worker b (.ok input) f mio clock sample hrt none).delivered =
        [BenchEvent.Answer a b.id, BenchEvent.Memory d b.id, BenchEvent.Timing r b.id,
         BenchEvent.Finish b.id]) ∨
     (∃ msg, (bench_worker b (.ok input) f mio clock sample hrt none).delivered =
        [BenchEvent.Error msg b.id, BenchEvent.Finish b.id])) ∧
    (bench_worker b (.ok input) f mio clock sample hrt none).delivered.countP isFinish = 1 ∧
    (bench_worker b (.ok input) f mio clock sample hrt none).delivered.getLast? =
      some (BenchEvent.Finish b.id) ∧
    noMemTimingAfterError (bench_worker b (.ok input) f mio clock sample hrt none).delivered =
      true := by
  obtain ⟨id, ro, bt⟩ := b
  cases f with
  | panics => exact ⟨Or.inr (Or.inr ⟨_, rfl⟩), rfl, rfl, rfl⟩
  | err msg => exact ⟨Or.inr (Or.inr ⟨_, rfl⟩), rfl, rfl, rfl⟩
  | ok t =>
    cases ro with
    | true => exact ⟨Or.inl ⟨_, rfl⟩, rfl, rfl, rfl⟩
    | false =>
      have hmem : bench_function_memory (.ok t) mio = .normal (.ok (get_data trace)) := by
        unfold bench_function_memory
        rw [h1, h2, h3, h4]
      have hd : (bench_worker ⟨id, false, bt⟩ (.ok input) (.ok t) mio clock sample hrt
          none).delivered =
          [BenchEvent.Answer t id, BenchEvent.Memory (get_data trace) id,
           BenchEvent.Timing ⟨total_time (total_runs bt clock hrt) sample /
              total_runs bt clock hrt⟩ id, BenchEvent.Finish id] := by
        simp [bench_worker, Bench.bench, hmem, bench_function_runtime, total_runs,
          total_time, sendOk, sendFinish, workerTail]
      rw [hd]
      exact ⟨Or.inr (Or.inl ⟨_, _, _, rfl⟩), rfl, rfl, rfl⟩

/-- Witness for C1: a full-benchmark success under a sound oracle has
one Finish, sent last, after all other events. -/
theorem c1_witness :
    (bench_worker ⟨0, false, 0⟩ (.ok "") (.ok "42") mio0 clock0 sample0 hfind0
        none).delivered.countP isFinish = 1 ∧
    (bench_worker ⟨0, false, 0⟩ (.ok "") (.ok "42") mio0 clock0 sample0 hfind0
        none).delivered.getLast? = some (BenchEvent.Finish 0) ∧
    noMemTimingAfterError
      (bench_worker ⟨0, false, 0⟩ (.ok "") (.ok "42") mio0 clock0 sample0 hfind0
        none).delivered = true :=
  have h := c1_job_lifecycle ⟨0, false, 0⟩ (.ok "42") mio0 clock0 sample0 hfind0 ""
    "A 1 100\nF 2 100" rfl rfl rfl rfl
  ⟨h.2.1, h.2.2.1, h.2.2.2⟩

/-! ## C5 -/

/-- C5: a job run with run_only = true never has a Memory or Timing
event sent (or even attempted) for its id, regardless of outcome,
input resolution or channel state. -/
theorem c5_run_only_no_sampling (b : Bench) (openRes : Except BenchError String)
    (f : FnOutcome) (mio : MemIoOracle) (clock sample : Nat → Nat)
    (hrt : ∃ n, stopCond b.bench_time clock n) (c : Option Nat)
    (hro : b.run_only = true) :
    ∀ e ∈ (bench_worker b openRes f mio clock sample hrt c).attempts,
      isMemTiming e = false := by
  intro e he
  cases openRes with
  | ok input =>
    rcases workerTail_attempts_mem b.id c (Bench.bench b f mio clock sample hrt c 0) e he with
      hb | hfalse
    · exact bench_attempts_run_only b f mio clock sample hrt c 0 hro e hb
    · exact hfalse
  | error err =>
    cases err with
    | InputFileError inner name =>
      simp only [bench_worker, sendFinish] at he
      repeat' split at he
      all_goals simp only [List.mem_append, List.mem_singleton, List.cons_append,
        List.nil_append, List.mem_cons, List.not_mem_nil, or_false] at he
      all_goals obtain rfl | rfl := he <;> rfl
    | MemoryBenchError e' id' => simp [bench_worker] at he
    | ChannelError id' => simp [bench_worker] at he
    | UserError msg => simp [bench_worker] at he
    | DaysFilterError day => simp [bench_worker] at he

/-- Witness for C5: with run_only set, the Answer event is attempted
and is not a Memory or Timing event. -/
theorem c5_witness :
    BenchEvent.Answer "42" 0 ∈
      (bench_worker ⟨0, true, 0⟩ (.ok "") (.ok "42") mio0 clock0 sample0 hfind0
        none).attempts ∧
    isMemTiming (BenchEvent.Answer "42" 0) = false :=
  ⟨by decide,
   c5_run_only_no_sampling ⟨0, true, 0⟩ (.ok "") (.ok "42") mio0 clock0 sample0 hfind0
     none rfl (BenchEvent.Answer "42" 0) (by decide)⟩

/-! ## C6 -/

/-- C6, counterexample: a job function that panics is reported with
the fixed message "Function panicked!", not "function faulted" as the
claim states — no event with that text is ever delivered. -/
theorem c6_counterexample :
    (bench_worker ⟨0, false, 0⟩ (.ok "") .panics mio0 clock0 sample0 hfind0 none).delivered =
      [BenchEvent.Error "Function panicked!" 0, BenchEvent.Finish 0] ∧
    BenchEvent.Error "function faulted" 0 ∉
      (bench_worker ⟨0, false, 0⟩ (.ok "") .panics mio0 clock0 sample0 hfind0
        none).delivered :=
  ⟨rfl, by decide⟩

/-- C6 as amended: a panicking job function is intercepted by the
worker's catch_unwind boundary, a single Error event with the fixed
message "Function panicked!" is sent for the job's id followed by
Finish, and the panic does not escape the worker (the worker thread
itself does not panic). -/
theorem c6_amended (b : Bench) (mio : MemIoOracle) (clock sample : Nat → Nat)
    (hrt : ∃ n, stopCond b.bench_time clock n) (input : String) :
    (bench_worker b (.ok input) .panics mio clock sample hrt none).delivered =
      [BenchEvent.Error "Function panicked!" b.id, BenchEvent.Finish b.id] ∧
    (bench_worker b (.ok input) .panics mio clock sample hrt none).panicked = false :=
  ⟨rfl, rfl⟩

/-- Witness for C6. -/
theorem c6_witness :
    (bench_worker ⟨7, true, 0⟩ (.ok "x") .panics mio0 clock0 sample0 hfind0 none).delivered =
      [BenchEvent.Error "Function panicked!" 7, BenchEvent.Finish 7] ∧
    (bench_worker ⟨7, true, 0⟩ (.ok "x") .panics mio0 clock0 sample0 hfind0 none).panicked =
      false :=
  c6_amended ⟨7, true, 0⟩ mio0 clock0 sample0 hfind0 "x"

/-! ## C7 -/

/-- C7: the memory sampler fails with a MemoryBenchError exactly when
one of its I/O steps (scratch-file creation, flush, seek, read) fails;
when it does, Bench::bench surfaces it as BenchError::MemoryBenchError
for the job, the Timing stage is never attempted, and the worker
reports it as a job-level Error event followed by Finish without
panicking. -/
theorem c7_memory_bench_error (t : String) (mio : MemIoOracle) (b : Bench) (input : String)
    (clock sample : Nat → Nat) (hrt : ∃ n, stopCond b.bench_time clock n) :
    ((∃ e', bench_function_memory (.ok t) mio = .normal (.error e')) ↔
      (ioFailed mio.tempfileRes = true ∨ ioFailed mio.flushRes = true ∨
       ioFailed mio.seekRes = true ∨ ioFailed mio.readRes = true)) ∧
    (∀ e : MemoryBenchError, b.run_only = false →
      bench_function_memory (.ok t) mio = .normal (.error e) →
      (Bench.bench b (.ok t) mio clock sample hrt none 0).res =
        .normal (.error (.MemoryBenchError e b.id)) ∧
      (∀ ev ∈ (bench_worker b (.ok input) (.ok t) mio clock sample hrt none).attempts,
        isTiming ev = false) ∧
      (bench_worker b (.ok input) (.ok t) mio clock sample hrt none).delivered =
        [BenchEvent.Answer t b.id,
         BenchEvent.Error (renderBenchError (.MemoryBenchError e b.id)) b.id,
         BenchEvent.Finish b.id] ∧
      (bench_worker b (.ok input) (.ok t) mio clock sample hrt none).panicked = false) := by
  constructor
  · rcases mio with ⟨tf, fl, se, re⟩
    rcases tf with e1 | u1 <;> rcases fl with e2 | u2 <;> rcases se with e3 | u3 <;>
      rcases re with e4 | s4 <;> simp [bench_function_memory, ioFailed]
  · intro e hro hfail
    obtain ⟨id, ro, bt⟩ := b
    simp only at hro
    subst hro
    have hb : Bench.bench ⟨id, false, bt⟩ (.ok t) mio clock sample hrt none 0 =
        ⟨[BenchEvent.Answer t id], [BenchEvent.Answer t id],
         .normal (.error (.MemoryBenchError e id)), 1⟩ := by
      simp [Bench.bench, hfail, sendOk]
    have hw : bench_worker ⟨id, false, bt⟩ (.ok input) (.ok t) mio clock sample hrt none =
        ⟨[BenchEvent.Answer t id,
          BenchEvent.Error (renderBenchError (.MemoryBenchError e id)) id,
          BenchEvent.Finish id],
         [BenchEvent.Answer t id,
          BenchEvent.Error (renderBenchError (.MemoryBenchError e id)) id,
          BenchEvent.Finish id], false, false⟩ := by
      simp only [bench_worker, hb, workerTail, sendOk, sendFinish]
      rfl
    refine ⟨by rw [hb], ?_, by rw [hw], by rw [hw]⟩
    rw [hw]
    intro ev hev
    fin_cases hev <;> rfl

/-- Witness for C7: a failing flush is surfaced as a job-level
MemoryBenchError and the worker reports it without a Timing event. -/
theorem c7_witness :
    (Bench.bench ⟨0, false, 0⟩ (.ok "ans") mioFlushFail clock0 sample0 hfind0 none 0).res =
      .normal (.error (.MemoryBenchError ⟨ioe0⟩ 0)) ∧
    (bench_worker ⟨0, false, 0⟩ (.ok "") (.ok "ans") mioFlushFail clock0 sample0 hfind0
        none).delivered =
      [BenchEvent.Answer "ans" 0,
       BenchEvent.Error (renderBenchError (.MemoryBenchError ⟨ioe0⟩ 0)) 0,
       BenchEvent.Finish 0] ∧
    (bench_worker ⟨0, false, 0⟩ (.ok "") (.ok "ans") mioFlushFail clock0 sample0 hfind0
        none).panicked = false :=
  have h := (c7_memory_bench_error "ans" mioFlushFail ⟨0, false, 0⟩ "" clock0 sample0
    hfind0).2 ⟨ioe0⟩ rfl rfl
  ⟨h.1, h.2.2.1, h.2.2.2⟩

/-! ## C8 -/

/-- C8: with the consumer gone from send index m on, Bench::bench
returns BenchError::ChannelError exactly when one of its sends fails
(its attempts run past index m); in that case the remaining steps are
abandoned, the worker's own expect on the follow-up Error send panics
the worker thread, a Finish for that job is never even attempted, and
nothing beyond the already-delivered events reaches the channel. -/
theorem c8_channel_error (b : Bench) (f : FnOutcome) (mio : MemIoOracle)
    (clock sample : Nat → Nat) (hrt : ∃ n, stopCond b.bench_time clock n)
    (input : String) (m : Nat) :
    ((Bench.bench b f mio clock sample hrt (some m) 0).res =
        .normal (.error (.ChannelError b.id)) ↔
      m < (Bench.bench b f mio clock sample hrt (some m) 0).attempts.length) ∧
    ((Bench.bench b f mio clock sample hrt (some m) 0).res =
        .normal (.error (.ChannelError b.id)) →
      BenchEvent.Finish b.id ∉
        (bench_worker b (.ok input) f mio clock sample hrt (some m)).attempts ∧
      (bench_worker b (.ok input) f mio clock sample hrt (some m)).panicked = true ∧
      (bench_worker b (.ok input) f mio clock sample hrt (some m)).delivered =
        (Bench.bench b f mio clock sample hrt (some m) 0).delivered) := by
  obtain ⟨hiff, hnext, hnofin⟩ := bench_channel_master b f mio clock sample hrt m
  refine ⟨hiff, fun h => ?_⟩
  have hlen := hiff.mp h
  have hfail : sendOk (some m) (Bench.bench b f mio clock sample hrt (some m) 0).next =
      false := by
    simp only [sendOk, hnext]
    simpa using Nat.not_lt.mpr (Nat.le_of_lt hlen)
  have hwt := workerTail_send_error_fail b.id (some m)
    (Bench.bench b f mio clock sample hrt (some m) 0) _ h hfail
  have hworker : bench_worker b (.ok input) f mio clock sample hrt (some m) =
      workerTail b.id (some m) (Bench.bench b f mio clock sample hrt (some m) 0) := rfl
  rw [hworker, hwt]
  refine ⟨?_, rfl, rfl⟩
  simp only [List.mem_append, List.mem_singleton]
  rintro (hin | hbad)
  · exact hnofin hin
  · exact BenchEvent.noConfusion hbad

/-- Witness for C8: with the consumer gone before the job's first
send, the Error send fails, ChannelError is surfaced, and no Finish is
attempted. -/
theorem c8_witness :
    (Bench.bench ⟨0, false, 0⟩ (.err "boom") mio0 clock0 sample0 hfind0 (some 0) 0).res =
      .normal (.error (.ChannelError 0)) ∧
    BenchEvent.Finish 0 ∉
      (bench_worker ⟨0, false, 0⟩ (.ok "") (.err "boom") mio0 clock0 sample0 hfind0
        (some 0)).attempts ∧
    (bench_worker ⟨0, false, 0⟩ (.ok "") (.err "boom") mio0 clock0 sample0 hfind0
        (some 0)).panicked = true :=
  have h := c8_channel_error ⟨0, false, 0⟩ (.err "boom") mio0 clock0 sample0 hfind0 "" 0
  have hres := h.1.mpr (by decide)
  ⟨hres, (h.2 hres).1, (h.2 hres).2.1⟩

/-! ## C10 -/

/-- C10: InputFile::open only ever fails with the InputFileError
variant of BenchError, so the worker's unreachable arm for any other
input-resolution error variant is never entered. -/
theorem c10_open_single_variant (fIn : InputFile) (fs : String → Except IoError String)
    (b : Bench) (fo : FnOutcome) (mio : MemIoOracle) (clock sample : Nat → Nat)
    (hrt : ∃ n, stopCond b.bench_time clock n) (c : Option Nat) :
    (∀ e, InputFile.openFile fIn fs = .error e →
      ∃ inner name, e = .InputFileError inner name) ∧
    (bench_worker b (InputFile.openFile fIn fs) fo mio clock sample hrt c).hitUnreachable =
      false := by
  constructor
  · intro e he
    unfold InputFile.openFile at he
    cases hfs : fs fIn.path with
    | ok s =>
      rw [hfs] at he
      exact absurd he (by simp)
    | error err =>
      rw [hfs] at he
      simp only [Except.error.injEq] at he
      exact ⟨err, fIn.path, he.symm⟩
  · cases hfs : fs fIn.path with
    | ok s =>
      have hopen : InputFile.openFile fIn fs = .ok s := by
        unfold InputFile.openFile
        rw [hfs]
      rw [hopen]
      show (workerTail b.id c (Bench.bench b fo mio clock sample hrt c 0)).hitUnreachable =
        false
      unfold workerTail sendFinish
      repeat' split
      all_goals rfl
    | error err =>
      have hopen : InputFile.openFile fIn fs = .error (.InputFileError err fIn.path) := by
        unfold InputFile.openFile
        rw [hfs]
      rw [hopen]
      cases hs0 : sendOk c 0 <;> cases hs1 : sendOk c 1 <;>
        simp [bench_worker, sendFinish, hs0, hs1]

/-- Witness for C10 on a concrete failing filesystem. -/
theorem c10_witness :
    (bench_worker ⟨0, false, 0⟩ (InputFile.openFile ⟨2015, 1, none⟩ fs0) (.ok "") mio0
      clock0 sample0 hfind0 none).hitUnreachable = false :=
  (c10_open_single_variant ⟨2015, 1, none⟩ fs0 ⟨0, false, 0⟩ (.ok "") mio0 clock0 sample0
    hfind0 none).2
